import Mathlib

/-!
Verification of the ZLUDA repository's natural-language specification
against a shallow embedding of its source code.

Embedded components:
* `EqMap` and the `is_spirv_fns_equal` / `is_spirv_fn_equal` / `is_block_equal`
  / `is_instr_equal` / `is_word_equal` / `is_option_equal` family from
  `ptx/src/test/spirv_run/mod.rs` (structural SPIR-V equality modulo id
  renaming).
* `record_module_image`, `directive_to_kernel`, `get_module_from_cubin`,
  `get_ptx_files`, `decompress_kernel_module` from `zluda_dump/src/lib.rs`.
* The build-step dispatch and shared-memory argument binding of `run_spirv`
  from `ptx/src/test/spirv_run/mod.rs`.

Rust `HashMap`s are modelled as association lists (`List (κ × ν)` with
`List.lookup`); machine ids (`spirv_headers::Word`, i.e. `u32`) are modelled
as `Nat` since the comparison code only tests them for equality.  Code that
can `panic!` is modelled with an `Option` result where `none` stands for the
panic.
-/

/-- SPIR-V id (`spirv_headers::Word`, a `u32`; only compared for equality). -/
abbrev Word := Nat

/-- Model of `EqMap<T>` from `ptx/src/test/spirv_run/mod.rs` (lines 362-391):
two hash maps `m1 : T -> T` and `m2 : T -> T`, modelled as association
lists. -/
structure EqMap where
  m1 : List (Word × Word)
  m2 : List (Word × Word)

/-- `EqMap::new()`. -/
def EqMap.new : EqMap := ⟨[], []⟩

/-- `EqMap::is_equal(&mut self, t1, t2)`: the Rust method matches on the two
hash-map entries.  Both occupied: return `*entry1.get() == t2 && *entry2.get() == t1`.
Both vacant: insert the pairing both ways and return `true`.
Mixed: return `false`.  The returned pair is (result, updated map). -/
def EqMap.is_equal (m : EqMap) (t1 t2 : Word) : Bool × EqMap :=
  match m.m1.lookup t1, m.m2.lookup t2 with
  | some v1, some v2 => (v1 == t2 && v2 == t1, m)
  | none, none => (true, ⟨(t1, t2) :: m.m1, (t2, t1) :: m.m2⟩)
  | _, _ => (false, m)

/-- `rspirv::dr::Operand`, collapsed: the three id-carrying variants that the
operand comparison treats specially, plus `other` for every remaining variant
(literals, enums, strings, ...), which Rust compares with `==`; the payload of
such a variant is abstracted into a `Nat` code. -/
inductive Operand where
  | idMemorySemantics (w : Word)
  | idScope (w : Word)
  | idRef (w : Word)
  | other (payload : Nat)
deriving DecidableEq

/-- `rspirv::dr::Instruction`, restricted to the fields read by
`is_instr_equal`; the opcode (`instr.class.opcode`) is a numeric code. -/
structure SpvInstruction where
  opcode : Nat
  result_type : Option Word
  result_id : Option Word
  operands : List Operand
deriving DecidableEq

/-- `rspirv::dr::Block`: an optional label instruction and a body. -/
structure SpvBlock where
  label : Option SpvInstruction
  instructions : List SpvInstruction
deriving DecidableEq

/-- `rspirv::dr::Function`: `def`/`end` instructions, parameters, blocks. -/
structure SpvFunction where
  fdef : Option SpvInstruction
  fend : Option SpvInstruction
  parameters : List SpvInstruction
  blocks : List SpvBlock
deriving DecidableEq

/-- Sequencing of two comparison steps: Rust's
`if !f(..) { return false; }` pattern.  A panic (`none`) or a `false` result
short-circuits; on `true` the updated map flows into the continuation. -/
def bandThen (r : Option (Bool × EqMap)) (k : EqMap → Option (Bool × EqMap)) :
    Option (Bool × EqMap) :=
  match r with
  | none => none
  | some (false, m) => some (false, m)
  | some (true, m) => k m

/-- `is_word_equal` (mod.rs lines 487-489): delegates to `EqMap::is_equal`. -/
def is_word_equal (t1 t2 : Word) (m : EqMap) : Option (Bool × EqMap) :=
  some (m.is_equal t1 t2)

/-- `is_option_equal` (mod.rs lines 491-502): both `Some` compares the
payloads, both `None` is `true`, and a `Some`/`None` mismatch is `panic!()`,
modelled as `none`. -/
def is_option_equal {α : Type}
    (f : α → α → EqMap → Option (Bool × EqMap)) :
    Option α → Option α → EqMap → Option (Bool × EqMap)
  | some a, some b, m => f a b m
  | none, none, m => some (true, m)
  | _, _, _ => none

/-- The operand loop of `is_instr_equal` over the zipped operand lists:
id-carrying variants of the same kind go through `is_word_equal`, everything
else through `==`. -/
def is_operands_equal : List (Operand × Operand) → EqMap → Option (Bool × EqMap)
  | [], m => some (true, m)
  | (o1, o2) :: rest, m =>
    match o1, o2 with
    | .idMemorySemantics w1, .idMemorySemantics w2 =>
      bandThen (is_word_equal w1 w2 m) (is_operands_equal rest)
    | .idScope w1, .idScope w2 =>
      bandThen (is_word_equal w1 w2 m) (is_operands_equal rest)
    | .idRef w1, .idRef w2 =>
      bandThen (is_word_equal w1 w2 m) (is_operands_equal rest)
    | o1, o2 =>
      if o1 = o2 then is_operands_equal rest m else some (false, m)

/-- `is_instr_equal` (mod.rs lines 447-485): opcode equality, then
`result_type` and `result_id` through `is_option_equal is_word_equal`, then
operand-count equality, then the operand loop. -/
def is_instr_equal (i1 i2 : SpvInstruction) (m : EqMap) :
    Option (Bool × EqMap) :=
  if i1.opcode ≠ i2.opcode then some (false, m)
  else
    bandThen (is_option_equal is_word_equal i1.result_type i2.result_type m)
      (fun m =>
        bandThen (is_option_equal is_word_equal i1.result_id i2.result_id m)
          (fun m =>
            if i1.operands.length ≠ i2.operands.length then some (false, m)
            else is_operands_equal (i1.operands.zip i2.operands) m))

/-- The per-pair loops of `is_spirv_fn_equal` / `is_block_equal` over zipped
lists (`for (x1, x2) in xs1.iter().zip(xs2.iter())`). -/
def zip_all_equal {α : Type} (f : α → α → EqMap → Option (Bool × EqMap)) :
    List (α × α) → EqMap → Option (Bool × EqMap)
  | [], m => some (true, m)
  | (a, b) :: rest, m => bandThen (f a b m) (zip_all_equal f rest)

/-- `is_block_equal` (mod.rs lines 432-445): label via `is_option_equal`,
then instruction-count equality, then the instruction loop. -/
def is_block_equal (b1 b2 : SpvBlock) (m : EqMap) : Option (Bool × EqMap) :=
  bandThen (is_option_equal is_instr_equal b1.label b2.label m) (fun m =>
    if b1.instructions.length ≠ b2.instructions.length then some (false, m)
    else zip_all_equal is_instr_equal (b1.instructions.zip b2.instructions) m)

/-- The body of `is_spirv_fn_equal` (mod.rs lines 405-430) with the `EqMap`
still visible in the result: fresh `EqMap`, then `def`, `end`, parameter
count, parameters, block count, blocks. -/
def fn_equal_chain (f1 f2 : SpvFunction) : Option (Bool × EqMap) :=
  bandThen (is_option_equal is_instr_equal f1.fdef f2.fdef EqMap.new)
    (fun m =>
      bandThen (is_option_equal is_instr_equal f1.fend f2.fend m) (fun m =>
        if f1.parameters.length ≠ f2.parameters.length then some (false, m)
        else
          bandThen
            (zip_all_equal is_instr_equal
              (f1.parameters.zip f2.parameters) m)
            (fun m =>
              if f1.blocks.length ≠ f2.blocks.length then some (false, m)
              else zip_all_equal is_block_equal (f1.blocks.zip f2.blocks) m)))

/-- `is_spirv_fn_equal` (mod.rs lines 405-430): the chain above, with the
final map state discarded (the Rust function returns only the `bool`). -/
def is_spirv_fn_equal (f1 f2 : SpvFunction) : Option Bool :=
  (fn_equal_chain f1 f2).map Prod.fst

/-- The function loop of `is_spirv_fns_equal`. -/
def fns_all_equal : List (SpvFunction × SpvFunction) → Option Bool
  | [] => some true
  | (f1, f2) :: rest =>
    match is_spirv_fn_equal f1 f2 with
    | none => none
    | some false => some false
    | some true => fns_all_equal rest

/-- `is_spirv_fns_equal` (mod.rs lines 393-403): function-count equality,
then the per-function loop. -/
def is_spirv_fns_equal (fns1 fns2 : List SpvFunction) : Option Bool :=
  if fns1.length ≠ fns2.length then some false
  else fns_all_equal (fns1.zip fns2)

/-- Equal opcode and equal operand count. -/
def InstrShapeEq (i1 i2 : SpvInstruction) : Prop :=
  i1.opcode = i2.opcode ∧ i1.operands.length = i2.operands.length

/-- Equal instruction count and pointwise instruction shapes. -/
def BlockShapeEq (b1 b2 : SpvBlock) : Prop :=
  b1.instructions.length = b2.instructions.length ∧
  ∀ p ∈ b1.instructions.zip b2.instructions, InstrShapeEq p.1 p.2

/-- Equal parameter and block counts, with pointwise shapes. -/
def FnShapeEq (f1 f2 : SpvFunction) : Prop :=
  f1.parameters.length = f2.parameters.length ∧
  f1.blocks.length = f2.blocks.length ∧
  (∀ p ∈ f1.parameters.zip f2.parameters, InstrShapeEq p.1 p.2) ∧
  (∀ p ∈ f1.blocks.zip f2.blocks, BlockShapeEq p.1 p.2)

/-- A `Function` with a `def` instruction and one parameter. -/
def cexFn1 : SpvFunction := ⟨some ⟨1, none, none, []⟩, none, [⟨1, none, none, []⟩], []⟩

/-- A `Function` with no `def` instruction and no parameters. -/
def cexFn2 : SpvFunction := ⟨none, none, [], []⟩

/-- `record_module_image` from `zluda_dump/src/lib.rs` (lines 127-163).
`hasAddressSize` models the `image.contains(".address_size")` pre-check;
the Rust `match (&*errors, ast)` records a module entry exactly in the
`(&[], Ok(ast))` arm and only logs otherwise.  The result is the recorded
entry, `none` when nothing is recorded. -/
def record_module_image {E F A : Type} (hasAddressSize : Bool)
    (errors : List E) (ast : Except F A) : Option A :=
  if hasAddressSize = false then none
  else
    match errors, ast with
    | [], .ok a => some a
    | _, _ => none

/-- The acceptance gate of `test_ptx_assert` from
`ptx/src/test/spirv_run/mod.rs` (lines 169-188): `parse(..)?` propagates a
fatal parse error, then `assert!(errors.len() == 0)` panics on a non-empty
error list; only then is the AST handed to translation.  Rejection by either
road is modelled as `none`. -/
def test_ptx_accepts {E F A : Type} (errors : List E) (ast : Except F A) :
    Option A :=
  match ast with
  | .error _ => none
  | .ok a => if errors.isEmpty then some a else none

/-- A kernel input argument declaration (`ast::KernelArgument`): only the
`v_type` field is read by `directive_to_kernel`. -/
structure KernelArgumentDecl (ArgTy : Type) where
  name : String
  v_type : ArgTy

/-- `ast::MethodDecl`: a kernel entry point with its input arguments, or a
device function (`Func`). -/
inductive MethodDecl (ArgTy : Type) where
  | kernel (name : String) (in_args : List (KernelArgumentDecl ArgTy))
  | func (name : String)

/-- `ast::Function`: only the `func_directive` field is read. -/
structure PtxFunction (ArgTy : Type) where
  func_directive : MethodDecl ArgTy

/-- `ast::Directive`: a module-level variable or a method. -/
inductive Directive (ArgTy : Type) where
  | Variable (v : Nat)
  | method (f : PtxFunction ArgTy)

/-- `directive_to_kernel` from `zluda_dump/src/lib.rs` (lines 182-196):
kernel-method directives yield the kernel name paired with
`in_args.iter().map(|arg| ast::Type::from(arg.v_type.clone()).size_of())`;
every other directive yields `None`. -/
def directive_to_kernel {ArgTy Ty : Type} (fromArg : ArgTy → Ty)
    (size_of : Ty → Nat) : Directive ArgTy → Option (String × List Nat)
  | .method ⟨.kernel name in_args⟩ =>
    some (name, in_args.map (fun arg => size_of (fromArg arg.v_type)))
  | _ => none

/-- Per-kernel metadata (`translate::KernelInfo` as read by `run_spirv`). -/
structure KernelInfo where
  uses_shared_mem : Bool
deriving DecidableEq

/-- `translate::Module` as consumed by `run_spirv`
(`ptx/src/test/spirv_run/mod.rs` lines 190-275): the assembled SPIR-V binary
(abstracted as `B`, the Rust `byte_il`), the kernel metadata table (a
`HashMap`, modelled as an association list), the optional precompiled support
binary, and the build-options string (abstracted as `S`). -/
structure TranslateModule (B S : Type) where
  spirv_bytes : B
  kernel_info : List (String × KernelInfo)
  should_link_ptx_impl : Option B
  build_options : S

/-- The two module-build entry points of the `ze` runtime that `run_spirv`
can invoke, with the arguments passed to them. -/
inductive ModuleBuildCall (B S : Type) where
  | build_link_spirv (binaries : List B) (opts : Option S)
  | build_spirv_logged (binary : B) (opts : Option S)
deriving DecidableEq

/-- The build-step dispatch of `run_spirv` (mod.rs lines 220-236):
`Some(ptx_impl)` links the support binary alongside the generated binary
(`&[ptx_impl, byte_il]`), `None` builds the generated binary alone; both
receive `Some(module.build_options.as_c_str())`. -/
def run_spirv_build_call {B S : Type} (m : TranslateModule B S) :
    ModuleBuildCall B S :=
  match m.should_link_ptx_impl with
  | some ptx_impl =>
    .build_link_spirv [ptx_impl, m.spirv_bytes] (some m.build_options)
  | none => .build_spirv_logged m.spirv_bytes (some m.build_options)

/-- `c_uint::max_value()`. -/
def UINT_MAX : Nat := 2 ^ 32 - 1

/-- `FATBIN_FILE_HEADER_KIND_PTX`. -/
def FATBIN_FILE_HEADER_KIND_PTX : Nat := 0x01

/-- `FATBIN_FILE_HEADER_VERSION_CURRENT`. -/
def FATBIN_FILE_HEADER_VERSION_CURRENT : Nat := 0x101

/-- `FatbinFileHeader`, restricted to the fields the selection logic reads,
plus an abstract `payload` standing for the compressed bytes the
decompressor consumes. -/
structure FatbinFileHeader where
  kind : Nat
  version : Nat
  sm_version : Fin (2 ^ 32)
  payload : Nat

/-- `get_ptx_files` (lines 630-643): keep exactly the headers whose `kind`
and `version` mark a current PTX file. -/
def get_ptx_files (files : List FatbinFileHeader) : List FatbinFileHeader :=
  files.filter (fun f => f.kind == FATBIN_FILE_HEADER_KIND_PTX &&
    f.version == FATBIN_FILE_HEADER_VERSION_CURRENT)

/-- The comparison used by
`ptx_files.sort_unstable_by_key(|f| c_uint::max_value() - (**f).sm_version)`:
ascending in the key `UINT_MAX - sm_version`. -/
def fatbinSortLE (a b : FatbinFileHeader) : Prop :=
  UINT_MAX - (a.sm_version : Nat) ≤ UINT_MAX - (b.sm_version : Nat)

instance : DecidableRel fatbinSortLE := fun _ _ => Nat.decLe _ _

instance : IsTotal FatbinFileHeader fatbinSortLE :=
  ⟨fun _ _ => Nat.le_total _ _⟩

instance : IsTrans FatbinFileHeader fatbinSortLE :=
  ⟨fun _ _ _ => Nat.le_trans⟩

/-- The sort step of `get_module_from_cubin` (line 603): `sort_unstable_by_key`
only promises a sorted permutation, modelled by insertion sort under the same
key order. -/
def sort_ptx_files (l : List FatbinFileHeader) : List FatbinFileHeader :=
  l.insertionSort fatbinSortLE

/-- The selection loop of `get_module_from_cubin` (lines 604-613): the first
header in order whose payload decompresses becomes `maybe_kernel_text`. -/
def first_decompressible {T : Type}
    (decompress : FatbinFileHeader → Option T) :
    List FatbinFileHeader → Option T
  | [] => none
  | f :: rest =>
    match decompress f with
    | some t => some t
    | none => first_decompressible decompress rest

/-- The PTX-variant selection performed by `get_module_from_cubin`
(lines 600-613): filter to PTX headers, sort by descending `sm_version`,
take the first that decompresses. -/
def get_module_from_cubin_kernel_text {T : Type}
    (decompress : FatbinFileHeader → Option T)
    (files : List FatbinFileHeader) : Option T :=
  first_decompressible decompress (sort_ptx_files (get_ptx_files files))

/-- The shared-memory flag computation of `run_spirv` (mod.rs lines 207-211):
`module.kernel_info.get(name).map(|info| info.uses_shared_mem).unwrap_or(false)`. -/
def run_spirv_uses_shared_mem {B S : Type} (m : TranslateModule B S)
    (name : String) : Bool :=
  ((m.kernel_info.lookup name).map KernelInfo.uses_shared_mem).getD false

/-- One kernel-argument binding performed by `run_spirv`:
`set_arg_buffer(index, ..)` or the raw shared-memory binding
`set_arg_raw(index, size, null)`. -/
inductive KernelArgBinding where
  | buffer (index : Nat)
  | raw (index : Nat) (size : Nat)
deriving DecidableEq

/-- The argument bindings performed by `run_spirv` (mod.rs lines 265-269):
buffers at indices 0 and 1 always, and the raw 128-byte shared-memory
argument at index 2 exactly when the computed flag is true. -/
def run_spirv_arg_bindings {B S : Type} (m : TranslateModule B S)
    (name : String) : List KernelArgBinding :=
  [.buffer 0, .buffer 1] ++
    (if run_spirv_uses_shared_mem m name then [.raw 2 128] else [])

/-- `MAX_PTX_MODULE_DECOMPRESSION_BOUND`: 16 MiB. -/
def MAX_PTX_MODULE_DECOMPRESSION_BOUND : Nat := 16 * 1024 * 1024

/-- The `loop` of `decompress_kernel_module`: attempt at the current buffer
capacity; on failure double the capacity, giving up (`some none`) when the
doubled size exceeds the bound; on success truncate the buffer to the
reported size (`Vec::truncate` caps at the current length, hence `min`). -/
def decompressLoop (attempt : Nat → Int) (fuel len : Nat) :
    Option (Option Nat) :=
  if attempt len < 0 then
    if MAX_PTX_MODULE_DECOMPRESSION_BOUND < len * 2 then some none
    else
      match fuel with
      | 0 => none
      | fuel' + 1 => decompressLoop attempt fuel' (len * 2)
  else some (some (min (attempt len).toNat len))

/-- `decompress_kernel_module` (lines 645-670): the buffer starts at
`max(1024, uncompressed_payload)` bytes.  The result is the final buffer
length (`none` = the Rust `None`), under fuel 15. -/
def decompress_kernel_module (attempt : Nat → Int)
    (uncompressed_payload : Nat) : Option (Option Nat) :=
  decompressLoop attempt 15 (max 1024 uncompressed_payload)

/-- Sign bit of an IEEE-754 binary32 bit pattern. -/
def f32_sign (w : Nat) : Nat := w / 2 ^ 31 % 2

/-- Biased exponent field of a binary32 bit pattern. -/
def f32_exp (w : Nat) : Nat := w / 2 ^ 23 % 2 ^ 8

/-- Fraction field of a binary32 bit pattern. -/
def f32_frac (w : Nat) : Nat := w % 2 ^ 23

/-- Modelled from the spec: the magnitude of a finite binary32 value as a
scaled natural `(num, negExp)` with value `num * 2 ^ (-negExp)`:
subnormals are `frac * 2 ^ (-149)`, normals `(2^23 + frac) * 2 ^ (exp - 150)`. -/
def f32_mag (w : Nat) : Nat × Nat :=
  if f32_exp w = 0 then (f32_frac w, 149)
  else if f32_exp w ≤ 150 then (2 ^ 23 + f32_frac w, 150 - f32_exp w)
  else ((2 ^ 23 + f32_frac w) * 2 ^ (f32_exp w - 150), 0)

/-- Modelled from the spec: encode the exact value `± num * 2 ^ (-negExp)`
as a finite binary32 bit pattern, when exactly representable: zero and the
subnormal range (`|v| < 2 ^ (-126)`) encode with exponent field 0; a normal
value searches its exponent field `e ∈ [1, 254]` with
`2 ^ (e-127) ≤ |v| < 2 ^ (e-126)`. -/
def f32_encode_finite (s num negExp : Nat) : Option Nat :=
  if num = 0 then some (s * 2 ^ 31)
  else if num * 2 ^ 126 < 2 ^ negExp then
    if num * 2 ^ 149 % 2 ^ negExp = 0 then
      some (s * 2 ^ 31 + num * 2 ^ 149 / 2 ^ negExp)
    else none
  else
    match (List.range 255).find? (fun e =>
        decide (0 < e) &&
        decide (2 ^ 23 * 2 ^ (e + negExp) ≤ num * 2 ^ 150) &&
        decide (num * 2 ^ 150 < 2 ^ 24 * 2 ^ (e + negExp))) with
    | some e =>
      if num * 2 ^ 150 % 2 ^ (e + negExp) = 0 then
        some (s * 2 ^ 31 + e * 2 ^ 23 +
          (num * 2 ^ 150 / 2 ^ (e + negExp) - 2 ^ 23))
      else none
    | none => none

/-- Modelled from the spec: exact binary32 multiplication of two finite bit
patterns, with an optional flush-to-zero modifier.  The product sign follows
the xor rule; under `ftz` a nonzero product whose magnitude is below
`2 ^ (-126)` (a denormal result) is flushed to the signed zero pattern,
otherwise the exact product is encoded.  NaN/infinity operands
(exponent field 255) are outside the model. -/
def f32_mul (ftz : Bool) (w1 w2 : Nat) : Option Nat :=
  if f32_exp w1 = 255 ∨ f32_exp w2 = 255 then none
  else
    let s := (f32_sign w1 + f32_sign w2) % 2
    let m1 := f32_mag w1
    let m2 := f32_mag w2
    let num := m1.1 * m2.1
    let negExp := m1.2 + m2.2
    if ftz then
      if num ≠ 0 ∧ num * 2 ^ 126 < 2 ^ negExp then some (s * 2 ^ 31)
      else f32_encode_finite s num negExp
    else f32_encode_finite s num negExp

/-- A binary32 value as the comparisons see it: NaN or a finite value. -/
inductive FVal where
  | nan
  | val (q : ℚ)
deriving DecidableEq

/-- Modelled from the spec: the ordered greater-than predicate
(`setp.gt.f32`): false whenever either operand is NaN. -/
def setp_gt_pred : FVal → FVal → Bool
  | .val a, .val b => decide (b < a)
  | _, _ => false

/-- Modelled from the spec: the unordered less-or-equal predicate
(`setp.leu.f32`): true whenever either operand is NaN. -/
def setp_leu_pred : FVal → FVal → Bool
  | .val a, .val b => decide (a ≤ b)
  | _, _ => true

/-- Modelled from the spec: the `setp_gt` test program — select the first
input when the ordered-gt predicate holds, the second (the "else" value)
otherwise. -/
def setp_gt_program (a b : FVal) : FVal :=
  if setp_gt_pred a b then a else b

/-- Modelled from the spec: the `setp_leu` test program — select the first
input when the unordered-leu predicate holds, the second otherwise. -/
def setp_leu_program (a b : FVal) : FVal :=
  if setp_leu_pred a b then a else b

/-! ## Theorems -/

/-- Claim C1: `EqMap::is_equal` implements consistent-bijection checking: on
first encounter of both ids it records the pairing in both directions and
returns `true`; when both ids were seen before it returns `true` exactly when
`t1` is mapped to `t2` and `t2` back to `t1`; and when exactly one side was
seen before (a pairing established earlier, contradicted now) it returns
`false` unconditionally. -/
theorem eqMap_is_equal_bijection (m : EqMap) (t1 t2 : Word) :
    (m.m1.lookup t1 = none → m.m2.lookup t2 = none →
      (m.is_equal t1 t2).1 = true ∧
      ((m.is_equal t1 t2).2.m1.lookup t1 = some t2 ∧
        (m.is_equal t1 t2).2.m2.lookup t2 = some t1)) ∧
    (∀ v1 v2, m.m1.lookup t1 = some v1 → m.m2.lookup t2 = some v2 →
      ((m.is_equal t1 t2).1 = true ↔ (v1 = t2 ∧ v2 = t1))) ∧
    ((m.m1.lookup t1).isSome ≠ (m.m2.lookup t2).isSome →
      (m.is_equal t1 t2).1 = false) := by
  refine ⟨?_, ?_, ?_⟩
  · intro h1 h2
    simp [EqMap.is_equal, h1, h2, List.lookup]
  · intro v1 v2 h1 h2
    simp [EqMap.is_equal, h1, h2, Bool.and_eq_true, beq_iff_eq]
  · intro hne
    cases h1 : m.m1.lookup t1 <;> cases h2 : m.m2.lookup t2 <;>
      simp [h1, h2] at hne ⊢ <;> simp [EqMap.is_equal, h1, h2]

/-- Witness for claim C1: concrete application on the empty map. -/
theorem eqMap_is_equal_bijection_witness :
    (EqMap.new.is_equal 3 7).1 = true ∧
    ((EqMap.new.is_equal 3 7).2.m1.lookup 3 = some 7 ∧
      (EqMap.new.is_equal 3 7).2.m2.lookup 7 = some 3) :=
  (eqMap_is_equal_bijection EqMap.new 3 7).1 rfl rfl

theorem bandThen_eq_true {r : Option (Bool × EqMap)}
    {k : EqMap → Option (Bool × EqMap)} {m' : EqMap}
    (h : bandThen r k = some (true, m')) :
    ∃ m0, r = some (true, m0) ∧ k m0 = some (true, m') := by
  cases r with
  | none => simp [bandThen] at h
  | some p =>
    obtain ⟨b, m0⟩ := p
    cases b with
    | false => simp [bandThen] at h
    | true => exact ⟨m0, rfl, h⟩

theorem is_instr_equal_true {i1 i2 : SpvInstruction} {m m' : EqMap}
    (h : is_instr_equal i1 i2 m = some (true, m')) : InstrShapeEq i1 i2 := by
  unfold is_instr_equal at h
  split at h
  · simp at h
  · rename_i hop
    obtain ⟨m1, _, h⟩ := bandThen_eq_true h
    obtain ⟨m2, _, h⟩ := bandThen_eq_true h
    split at h
    · simp at h
    · rename_i hlen
      exact ⟨not_ne_iff.mp hop, not_ne_iff.mp hlen⟩

theorem zip_all_equal_true {α : Type}
    {f : α → α → EqMap → Option (Bool × EqMap)} :
    ∀ {l : List (α × α)} {m m' : EqMap},
      zip_all_equal f l m = some (true, m') →
      ∀ p ∈ l, ∃ m1 m2, f p.1 p.2 m1 = some (true, m2) := by
  intro l
  induction l with
  | nil => intro m m' _ p hp; simp at hp
  | cons hd tl ih =>
    intro m m' h p hp
    obtain ⟨a, b⟩ := hd
    unfold zip_all_equal at h
    obtain ⟨m1, h1, h2⟩ := bandThen_eq_true h
    rcases List.mem_cons.mp hp with heq | hmem
    · subst heq; exact ⟨m, m1, h1⟩
    · exact ih h2 p hmem

theorem is_block_equal_true {b1 b2 : SpvBlock} {m m' : EqMap}
    (h : is_block_equal b1 b2 m = some (true, m')) : BlockShapeEq b1 b2 := by
  unfold is_block_equal at h
  obtain ⟨m1, _, h⟩ := bandThen_eq_true h
  split at h
  · simp at h
  · rename_i hlen
    refine ⟨not_ne_iff.mp hlen, ?_⟩
    intro p hp
    obtain ⟨mm1, mm2, hf⟩ := zip_all_equal_true h p hp
    exact is_instr_equal_true hf

theorem is_spirv_fn_equal_true {f1 f2 : SpvFunction}
    (h : is_spirv_fn_equal f1 f2 = some true) : FnShapeEq f1 f2 := by
  unfold is_spirv_fn_equal at h
  match hrv : fn_equal_chain f1 f2 with
  | none => rw [hrv] at h; simp at h
  | some (false, mfin) => rw [hrv] at h; simp at h
  | some (true, mfin) =>
    unfold fn_equal_chain at hrv
    obtain ⟨m1, _, hrv⟩ := bandThen_eq_true hrv
    obtain ⟨m2, _, hrv⟩ := bandThen_eq_true hrv
    split at hrv
    · simp at hrv
    · rename_i hplen
      obtain ⟨m3, hpar, hrv⟩ := bandThen_eq_true hrv
      split at hrv
      · simp at hrv
      · rename_i hblen
        refine ⟨not_ne_iff.mp hplen, not_ne_iff.mp hblen, ?_, ?_⟩
        · intro p hp
          obtain ⟨mm1, mm2, hf⟩ := zip_all_equal_true hpar p hp
          exact is_instr_equal_true hf
        · intro p hp
          obtain ⟨mm1, mm2, hf⟩ := zip_all_equal_true hrv p hp
          exact is_block_equal_true hf

theorem fns_all_equal_true :
    ∀ {l : List (SpvFunction × SpvFunction)}, fns_all_equal l = some true →
      ∀ p ∈ l, is_spirv_fn_equal p.1 p.2 = some true := by
  intro l
  induction l with
  | nil => intro _ p hp; simp at hp
  | cons hd tl ih =>
    intro h p hp
    obtain ⟨a, b⟩ := hd
    unfold fns_all_equal at h
    split at h
    · simp at h
    · simp at h
    · rename_i hone
      rcases List.mem_cons.mp hp with heq | hmem
      · subst heq; exact hone
      · exact ih h p hmem

/-- Claim C2 (amended): `is_spirv_fns_equal` returns `false` whenever the two
lists have different function counts; and whenever it returns `true`, no
structural mismatch exists — corresponding functions have equal parameter
counts and block counts, corresponding blocks have equal instruction counts,
and corresponding instructions have equal opcodes and operand counts (so on
any such mismatch the comparison never returns `true`: it returns `false`,
or panics when a `Some`/`None` presence mismatch in a `def`/`end`/label/
result slot is hit first). -/
theorem is_spirv_fns_equal_structural (fns1 fns2 : List SpvFunction) :
    (fns1.length ≠ fns2.length → is_spirv_fns_equal fns1 fns2 = some false) ∧
    (is_spirv_fns_equal fns1 fns2 = some true →
      fns1.length = fns2.length ∧ ∀ p ∈ fns1.zip fns2, FnShapeEq p.1 p.2) := by
  constructor
  · intro hne
    unfold is_spirv_fns_equal
    simp [hne]
  · intro h
    unfold is_spirv_fns_equal at h
    split at h
    · simp at h
    · rename_i hlen
      exact ⟨not_ne_iff.mp hlen,
        fun p hp => is_spirv_fn_equal_true (fns_all_equal_true h p hp)⟩

/-- Witness for claim C2 (amended): a concrete function-count mismatch
yields `some false`. -/
theorem is_spirv_fns_equal_structural_witness :
    is_spirv_fns_equal [] [⟨none, none, [], []⟩] = some false :=
  (is_spirv_fns_equal_structural [] [⟨none, none, [], []⟩]).1 (by decide)

/-- Counterexample to claim C2 as stated: these two singleton function lists
differ in parameter count (1 vs 0), a structural reason no bijection can
exist, yet `is_spirv_fns_equal` does not return `false` — it panics
(modelled as `none`) on the `Some`/`None` mismatch of the `def` slots before
reaching the parameter-count check. -/
theorem is_spirv_fns_equal_param_mismatch_panics :
    cexFn1.parameters.length ≠ cexFn2.parameters.length ∧
    is_spirv_fns_equal [cexFn1] [cexFn2] ≠ some false ∧
    is_spirv_fns_equal [cexFn1] [cexFn2] = none := by decide

/-- Claim C3: parse success is the conjunction of an empty accumulated error
list and a successfully constructed AST — both the dump tool's
`record_module_image` and the test harness accept (record/translate) a module
exactly when the error list is empty and the parse returned `Ok`; a non-empty
error list invalidates the AST even when one was produced. -/
theorem parse_success_conjunction {E F A : Type} (hasAddressSize : Bool)
    (errors : List E) (ast : Except F A) (a : A) :
    (record_module_image hasAddressSize errors ast = some a ↔
      (hasAddressSize = true ∧ errors = [] ∧ ast = Except.ok a)) ∧
    (test_ptx_accepts errors ast = some a ↔
      (errors = [] ∧ ast = Except.ok a)) := by
  constructor
  · cases hasAddressSize with
    | false => simp [record_module_image]
    | true =>
      cases errors with
      | cons e es => simp [record_module_image]
      | nil =>
        cases ast with
        | error f => simp [record_module_image]
        | ok a0 => simp [record_module_image]
  · cases ast with
    | error f => simp [test_ptx_accepts]
    | ok a0 =>
      cases errors with
      | nil => simp [test_ptx_accepts]
      | cons e es => simp [test_ptx_accepts]

/-- Witness for claim C3: a concrete clean parse is recorded and accepted;
built by applying the characterization at concrete inputs. -/
theorem parse_success_conjunction_witness :
    record_module_image true ([] : List Nat)
        (Except.ok (5 : Nat) : Except Nat Nat) = some 5 ∧
    test_ptx_accepts ([] : List Nat)
        (Except.ok (5 : Nat) : Except Nat Nat) = some 5 :=
  ⟨(parse_success_conjunction true [] (Except.ok 5) 5).1.mpr ⟨rfl, rfl, rfl⟩,
    (parse_success_conjunction true [] (Except.ok 5) 5).2.mpr ⟨rfl, rfl⟩⟩

/-- Claim C5: `directive_to_kernel` yields an entry exactly for kernel-method
directives, mapping the kernel name to its input parameters' sizes computed
by the size-of query, in declaration order; device functions and all other
directives yield none. -/
theorem directive_to_kernel_spec {ArgTy Ty : Type} (fromArg : ArgTy → Ty)
    (size_of : Ty → Nat) (d : Directive ArgTy) :
    (∀ name in_args, d = .method ⟨.kernel name in_args⟩ →
      directive_to_kernel fromArg size_of d =
        some (name, in_args.map (fun arg => size_of (fromArg arg.v_type)))) ∧
    ((∀ name in_args, d ≠ .method ⟨.kernel name in_args⟩) →
      directive_to_kernel fromArg size_of d = none) := by
  constructor
  · intro name in_args hd
    subst hd
    rfl
  · intro hne
    match d with
    | .Variable v => rfl
    | .method ⟨.kernel name in_args⟩ => exact absurd rfl (hne name in_args)
    | .method ⟨.func name⟩ => rfl

/-- Witness for claim C5: a concrete kernel directive with two arguments
produces its size list in declaration order; a device function produces
nothing. -/
theorem directive_to_kernel_spec_witness :
    directive_to_kernel (id : Nat → Nat) (fun t => t + 1)
        (.method ⟨.kernel "add" [⟨"x", 7⟩, ⟨"y", 3⟩]⟩) = some ("add", [8, 4]) ∧
    directive_to_kernel (id : Nat → Nat) (fun t => t + 1)
        (.method ⟨.func "helper"⟩) = none :=
  ⟨(directive_to_kernel_spec id (fun t => t + 1)
      (.method ⟨.kernel "add" [⟨"x", 7⟩, ⟨"y", 3⟩]⟩)).1 "add"
      [⟨"x", 7⟩, ⟨"y", 3⟩] rfl,
    (directive_to_kernel_spec id (fun t => t + 1)
      (.method ⟨.func "helper"⟩)).2 (fun name in_args h => by cases h)⟩

/-- Claim C6: the loader's build step is governed by the optional
support-binary reference: `Some` links the precompiled support binary
alongside the generated binary with the artifact's build-options string;
`None` builds the generated binary alone with the same options string. -/
theorem run_spirv_build_dispatch {B S : Type} (m : TranslateModule B S) :
    (∀ p, m.should_link_ptx_impl = some p →
      run_spirv_build_call m =
        .build_link_spirv [p, m.spirv_bytes] (some m.build_options)) ∧
    (m.should_link_ptx_impl = none →
      run_spirv_build_call m =
        .build_spirv_logged m.spirv_bytes (some m.build_options)) := by
  constructor
  · intro p hp
    unfold run_spirv_build_call
    rw [hp]
  · intro hn
    unfold run_spirv_build_call
    rw [hn]

/-- Witness for claim C6: both dispatch arms at concrete modules. -/
theorem run_spirv_build_dispatch_witness :
    run_spirv_build_call (⟨10, [], some 99, 0⟩ : TranslateModule Nat Nat) =
      .build_link_spirv [99, 10] (some 0) ∧
    run_spirv_build_call (⟨10, [], none, 0⟩ : TranslateModule Nat Nat) =
      .build_spirv_logged 10 (some 0) :=
  ⟨(run_spirv_build_dispatch ⟨10, [], some 99, 0⟩).1 99 rfl,
    (run_spirv_build_dispatch ⟨10, [], none, 0⟩).2 rfl⟩

theorem fatbinSortLE_desc {a b : FatbinFileHeader} (h : fatbinSortLE a b) :
    (b.sm_version : Nat) ≤ (a.sm_version : Nat) := by
  have ha := a.sm_version.isLt
  have hb := b.sm_version.isLt
  unfold fatbinSortLE UINT_MAX at h
  omega

theorem first_decompressible_max {T : Type}
    (decompress : FatbinFileHeader → Option T) :
    ∀ (l : List FatbinFileHeader),
      List.Pairwise
        (fun a b => (b.sm_version : Nat) ≤ (a.sm_version : Nat)) l →
      ∀ t, first_decompressible decompress l = some t →
      ∃ f ∈ l, decompress f = some t ∧
        ∀ g ∈ l, (decompress g).isSome →
          (g.sm_version : Nat) ≤ (f.sm_version : Nat) := by
  intro l
  induction l with
  | nil => intro _ t h; simp [first_decompressible] at h
  | cons f rest ih =>
    intro hpw t h
    obtain ⟨hf, hrest⟩ := List.pairwise_cons.mp hpw
    unfold first_decompressible at h
    cases hd : decompress f with
    | some t0 =>
      rw [hd] at h
      injection h with h
      subst h
      refine ⟨f, List.mem_cons_self f rest, hd, ?_⟩
      intro g hg _
      rcases List.mem_cons.mp hg with hgf | hgr
      · subst hgf; exact le_refl _
      · exact hf g hgr
    | none =>
      rw [hd] at h
      obtain ⟨f', hf'mem, hf'dec, hf'max⟩ := ih hrest t h
      refine ⟨f', List.mem_cons_of_mem f hf'mem, hf'dec, ?_⟩
      intro g hg hgsome
      rcases List.mem_cons.mp hg with hgf | hgr
      · subst hgf; rw [hd] at hgsome; simp at hgsome
      · exact hf'max g hgr hgsome

/-- Claim C4: the unpacking path selects the best-matching PTX variant by
highest architecture version: the PTX file headers are sorted in descending
`sm_version` order, and the recorded text is the decompression of the first
variant that decompresses successfully, so the selected variant has the
maximal `sm_version` among all decompressible PTX variants in the
container. -/
theorem get_module_from_cubin_selects_max {T : Type}
    (decompress : FatbinFileHeader → Option T)
    (files : List FatbinFileHeader) :
    List.Pairwise (fun a b => (b.sm_version : Nat) ≤ (a.sm_version : Nat))
      (sort_ptx_files (get_ptx_files files)) ∧
    ∀ t, get_module_from_cubin_kernel_text decompress files = some t →
      ∃ f ∈ get_ptx_files files, decompress f = some t ∧
        ∀ g ∈ get_ptx_files files, (decompress g).isSome →
          (g.sm_version : Nat) ≤ (f.sm_version : Nat) := by
  have hsorted :
      List.Pairwise (fun a b => (b.sm_version : Nat) ≤ (a.sm_version : Nat))
        (sort_ptx_files (get_ptx_files files)) := by
    have hs := List.sorted_insertionSort fatbinSortLE (get_ptx_files files)
    exact List.Pairwise.imp (fun h => fatbinSortLE_desc h) hs
  refine ⟨hsorted, ?_⟩
  intro t h
  obtain ⟨f, hfmem, hfdec, hfmax⟩ :=
    first_decompressible_max decompress _ hsorted t h
  refine ⟨f, (List.mem_insertionSort fatbinSortLE).mp hfmem, hfdec, ?_⟩
  intro g hg hgsome
  exact hfmax g ((List.mem_insertionSort fatbinSortLE).mpr hg) hgsome

/-- Witness for claim C4: a container with a failing `sm_75` variant and two
decompressible variants (`sm_60`, `sm_80`) selects the `sm_80` text. -/
theorem get_module_from_cubin_selects_max_witness :
    ∃ f ∈ get_ptx_files
        [⟨1, 0x101, 60, 0⟩, ⟨1, 0x101, 80, 1⟩, ⟨1, 0x101, 75, 2⟩],
      (fun f : FatbinFileHeader =>
          if f.payload = 2 then none else some (f.payload)) f = some 1 ∧
      ∀ g ∈ get_ptx_files
          [⟨1, 0x101, 60, 0⟩, ⟨1, 0x101, 80, 1⟩, ⟨1, 0x101, 75, 2⟩],
        ((fun f : FatbinFileHeader =>
            if f.payload = 2 then none else some (f.payload)) g).isSome →
          (g.sm_version : Nat) ≤ (f.sm_version : Nat) :=
  (get_module_from_cubin_selects_max
      (fun f : FatbinFileHeader =>
        if f.payload = 2 then none else some (f.payload))
      [⟨1, 0x101, 60, 0⟩, ⟨1, 0x101, 80, 1⟩, ⟨1, 0x101, 75, 2⟩]).2 1
    (by decide)

/-- Claim C10: a kernel name absent from the artifact's `kernel_info` table
is treated as not using shared memory; a present name contributes its
entry's flag; and the extra shared-memory argument at index 2 is bound
exactly when the computed flag is true. -/
theorem run_spirv_shared_mem_spec {B S : Type} (m : TranslateModule B S)
    (name : String) :
    (m.kernel_info.lookup name = none →
      run_spirv_uses_shared_mem m name = false) ∧
    (∀ info, m.kernel_info.lookup name = some info →
      run_spirv_uses_shared_mem m name = info.uses_shared_mem) ∧
    (KernelArgBinding.raw 2 128 ∈ run_spirv_arg_bindings m name ↔
      run_spirv_uses_shared_mem m name = true) := by
  refine ⟨?_, ?_, ?_⟩
  · intro h
    unfold run_spirv_uses_shared_mem
    rw [h]
    rfl
  · intro info h
    unfold run_spirv_uses_shared_mem
    rw [h]
    rfl
  · unfold run_spirv_arg_bindings
    cases h : run_spirv_uses_shared_mem m name <;> simp [h]

/-- Witness for claim C10: a missing kernel name yields no shared-memory
flag, a present one yields its entry's flag. -/
theorem run_spirv_shared_mem_spec_witness :
    run_spirv_uses_shared_mem
      (⟨0, [("k", ⟨true⟩)], none, 0⟩ : TranslateModule Nat Nat) "absent" =
      false ∧
    run_spirv_uses_shared_mem
      (⟨0, [("k", ⟨true⟩)], none, 0⟩ : TranslateModule Nat Nat) "k" = true :=
  ⟨(run_spirv_shared_mem_spec ⟨0, [("k", ⟨true⟩)], none, 0⟩ "absent").1 rfl,
    (run_spirv_shared_mem_spec ⟨0, [("k", ⟨true⟩)], none, 0⟩ "k").2.1 ⟨true⟩
      rfl⟩

theorem decompressLoop_no_fuel_exhaustion (attempt : Nat → Int) :
    ∀ (fuel len : Nat), 0 < len →
      MAX_PTX_MODULE_DECOMPRESSION_BOUND < len * 2 ^ fuel →
      decompressLoop attempt fuel len ≠ none := by
  intro fuel
  induction fuel with
  | zero =>
    intro len hpos hbig
    unfold decompressLoop
    split
    · rw [if_pos]
      · exact fun h => by cases h
      · simp only [pow_zero, Nat.mul_one] at hbig
        omega
    · exact fun h => by cases h
  | succ f ih =>
    intro len hpos hbig
    unfold decompressLoop
    split
    · split
      · exact fun h => by cases h
      · apply ih (len * 2) (by omega)
        have : len * 2 ^ (f + 1) = len * 2 * 2 ^ f := by ring
        omega
    · exact fun h => by cases h

theorem decompressLoop_success (attempt : Nat → Int) :
    ∀ (fuel len l : Nat),
      decompressLoop attempt fuel len = some (some l) →
      ∃ n, len ≤ n ∧ 0 ≤ attempt n ∧ l = min (attempt n).toNat n := by
  intro fuel
  induction fuel with
  | zero =>
    intro len l h
    unfold decompressLoop at h
    split at h
    · split at h
      · injection h with h; cases h
      · cases h
    · rename_i hge
      injection h with h
      injection h with h
      exact ⟨len, le_refl _, by omega, h.symm⟩
  | succ f ih =>
    intro len l h
    unfold decompressLoop at h
    split at h
    · split at h
      · injection h with h; cases h
      · obtain ⟨n, hn, hok, hl⟩ := ih (len * 2) l h
        exact ⟨n, by omega, hok, hl⟩
    · rename_i hge
      injection h with h
      injection h with h
      exact ⟨len, le_refl _, by omega, h.symm⟩

theorem decompressLoop_failure (attempt : Nat → Int) :
    ∀ (fuel len : Nat),
      decompressLoop attempt fuel len = some none →
      ∃ n, len ≤ n ∧ attempt n < 0 ∧
        MAX_PTX_MODULE_DECOMPRESSION_BOUND < n * 2 := by
  intro fuel
  induction fuel with
  | zero =>
    intro len h
    unfold decompressLoop at h
    split at h
    · split at h
      · rename_i hlt hbound
        exact ⟨len, le_refl _, hlt, hbound⟩
      · cases h
    · injection h with h; cases h
  | succ f ih =>
    intro len h
    unfold decompressLoop at h
    split at h
    · split at h
      · rename_i hlt hbound
        exact ⟨len, le_refl _, hlt, hbound⟩
      · obtain ⟨n, hn, hneg, hbound⟩ := ih (len * 2) h
        exact ⟨n, by omega, hneg, hbound⟩
    · injection h with h; cases h

/-- Claim C9: for every decompressor behaviour and declared uncompressed
size, `decompress_kernel_module` terminates (fuel 15 is never exhausted,
starting from `max 1024 uncompressed` and doubling); it returns `None`
only after a failed attempt whose doubled buffer size exceeds the 16 MiB
bound; and on success the returned vector length is exactly the size the
decompressor reported (given that the decompressor never reports more than
the buffer capacity, as `LZ4_decompress_safe` guarantees). -/
theorem decompress_kernel_module_spec (attempt : Nat → Int)
    (uncompressed_payload : Nat)
    (hreport : ∀ n, attempt n ≤ (n : Int)) :
    decompress_kernel_module attempt uncompressed_payload ≠ none ∧
    (∀ l, decompress_kernel_module attempt uncompressed_payload =
        some (some l) →
      ∃ n, max 1024 uncompressed_payload ≤ n ∧ 0 ≤ attempt n ∧
        l = (attempt n).toNat) ∧
    (decompress_kernel_module attempt uncompressed_payload = some none →
      ∃ n, max 1024 uncompressed_payload ≤ n ∧ attempt n < 0 ∧
        MAX_PTX_MODULE_DECOMPRESSION_BOUND < n * 2) := by
  refine ⟨?_, ?_, ?_⟩
  · apply decompressLoop_no_fuel_exhaustion attempt 15
        (max 1024 uncompressed_payload) (by omega)
    have h1 : (1024 : Nat) ≤ max 1024 uncompressed_payload :=
      le_max_left _ _
    have h2 : (2 : Nat) ^ 15 = 32768 := by norm_num
    have h3 : max 1024 uncompressed_payload * 2 ^ 15 ≥ 1024 * 32768 := by
      rw [h2]
      exact Nat.mul_le_mul_right _ h1
    unfold MAX_PTX_MODULE_DECOMPRESSION_BOUND
    omega
  · intro l h
    obtain ⟨n, hn, hok, hl⟩ := decompressLoop_success attempt 15 _ l h
    refine ⟨n, hn, hok, ?_⟩
    have hle : (attempt n).toNat ≤ n := Int.toNat_le.mpr (hreport n)
    omega
  · intro h
    exact decompressLoop_failure attempt 15 _ h

/-- Witness for claim C9: a decompressor failing below capacity 4096 and
reporting size 100 at capacity 4096; the loop doubles 1024 to 4096 and
returns the reported size. -/
theorem decompress_kernel_module_spec_witness :
    decompress_kernel_module
        (fun n => if n < 4096 then -1 else 100) 0 ≠ none ∧
    (∃ n, max 1024 0 ≤ n ∧
      (0 : Int) ≤ (fun n : Nat => if n < 4096 then (-1 : Int) else 100) n ∧
      (100 : Nat) =
        ((fun n : Nat => if n < 4096 then (-1 : Int) else 100) n).toNat) :=
  have hreport : ∀ n : Nat,
      (if n < 4096 then (-1 : Int) else 100) ≤ (n : Int) := by
    intro n
    split
    · omega
    · rename_i hn
      omega
  ⟨(decompress_kernel_module_spec _ 0 hreport).1,
    (decompress_kernel_module_spec _ 0 hreport).2.1 100 (by decide)⟩

/-- Claim C7: multiplying the large denormal bit pattern
`0b1_00000000_10000000000000000000000` (`2^31 + 2^22`) by `0.5`
(`0x3f000000`) under flush-to-zero yields the signed-zero pattern
`0b1_00000000_00000000000000000000000` (`2^31`), while the same multiply
without the modifier yields the full-precision denormal pattern
`0b1_00000000_01000000000000000000000` (`2^31 + 2^21`) — exactly the
expected outputs of the `mul_ftz` and `mul_non_ftz` tests, and the two
results differ. -/
theorem mul_ftz_bit_exact :
    f32_mul true (2 ^ 31 + 2 ^ 22) 0x3f000000 = some (2 ^ 31) ∧
    f32_mul false (2 ^ 31 + 2 ^ 22) 0x3f000000 = some (2 ^ 31 + 2 ^ 21) ∧
    (2 ^ 31 : Nat) ≠ 2 ^ 31 + 2 ^ 21 := by decide

/-- Claim C8: NaN comparison semantics follow IEEE-754 per variant: the
ordered greater-than predicate with a NaN operand is false-equivalent (the
program selects the "else" value), the unordered less-or-equal predicate
with a NaN operand is true-equivalent; on the test vectors, `setp_gt` on
`(NaN, 1.0)` produces `1.0` and `setp_leu` on `(1.0, NaN)` produces `1.0`. -/
theorem setp_nan_semantics :
    (∀ x, setp_gt_pred .nan x = false) ∧
    (∀ x, setp_gt_pred x .nan = false) ∧
    (∀ x, setp_leu_pred .nan x = true) ∧
    (∀ x, setp_leu_pred x .nan = true) ∧
    setp_gt_program .nan (.val 1) = .val 1 ∧
    setp_leu_program (.val 1) .nan = .val 1 := by
  refine ⟨?_, ?_, ?_, ?_, rfl, rfl⟩
  · intro x; cases x <;> rfl
  · intro x; cases x <;> rfl
  · intro x; cases x <;> rfl
  · intro x; cases x <;> rfl

/-- Counterexample to claim C4 as stated: a container with two PTX variants
sharing `sm_version` 80 sorts to a list that is not strictly descending in
`sm_version` — the tie makes strict descent fail (the order is descending,
but not strictly). -/
theorem sort_ptx_files_not_strictly_descending :
    ¬ List.Pairwise
        (fun a b : FatbinFileHeader =>
          (b.sm_version : Nat) < (a.sm_version : Nat))
        (sort_ptx_files [⟨1, 0x101, 80, 0⟩, ⟨1, 0x101, 80, 1⟩]) := by decide

/-- Witness for claim C8: the universally quantified NaN conjuncts applied
at a concrete finite operand. -/
theorem setp_nan_semantics_witness :
    setp_gt_pred .nan (.val 2) = false ∧ setp_leu_pred (.val 2) .nan = true :=
  ⟨setp_nan_semantics.1 (.val 2), setp_nan_semantics.2.2.2.1 (.val 2)⟩
